import Mathlib

/-!
Verification of the RAG-vs-baseline evaluation program (src/test.py).

The program's pure decision logic is embedded shallowly:
* Python `str.split()` word counting becomes `pyWords` / `wordCount`;
* the stage-2 revision acceptance test of `RAGPipelineV2.process`
  (line 585) becomes `ragAcceptRevision`;
* the retry loops of `MistralClient.chat` / `MistralClient.embed`
  become `chatGo` / `embedGo`, driven by a list of per-attempt upstream
  outcomes (the network is the only impure part of those functions);
* the chunking loop of `DocumentChunker.chunk_documents` becomes
  `chunkLoop` (fuel-based, so that the non-terminating configurations
  of the Python `while` loop show up as fuel exhaustion: `none`);
* `VectorStore.search`'s post-processing of the faiss result arrays
  becomes `vectorStoreSearchRows`, with faiss's documented IndexFlat
  contract (exact top-k, padded with label -1 and a large negative
  fill score when k exceeds the number of stored vectors) embedded as
  `faissSearch`;
* `LLMJudge.evaluate` / `LLMJudge._parse` become `judgeEvaluateCore` /
  `judgeParse`, with the `re` / `json` library callouts abstracted as
  oracle inputs (the brace-extracted JSON object, the per-dimension
  pattern hits, and the two preference-pattern hits).

Machine floats appear only in the 0.7 word-count threshold of
`RAGPipelineV2.process`; the comparison `m >= n * 0.7` on Python ints
m, n agrees with the exact rational comparison `10 * m >= 7 * n` for
every n up to 2,000,000 (checked exhaustively), far beyond any word
count the program can produce, so the threshold is embedded exactly.
-/

/-! ## Python string/list helpers -/

/-- Helper for `pyWords`: scan the character list, accumulating the
current word (reversed) and emitting it at each whitespace run. -/
def pyWordsAux : List Char → List Char → List String
  | [], acc => if acc.isEmpty then [] else [String.mk acc.reverse]
  | c :: cs, acc =>
    if c.isWhitespace then
      (if acc.isEmpty then pyWordsAux cs [] else String.mk acc.reverse :: pyWordsAux cs [])
    else pyWordsAux cs (c :: acc)

/-- Python `s.split()`: split on whitespace runs; leading, trailing and
repeated whitespace produce no empty words. -/
def pyWords (s : String) : List String := pyWordsAux s.data []

/-- Model of `len(s.split())` — the word count used throughout src/test.py. -/
def wordCount (s : String) : Nat := (pyWords s).length

/-! ## RAGPipelineV2.process — stage-2 acceptance (src/test.py:585)

`final_output = revised if len(revised.split()) >= len(answer.split()) * 0.7
                else answer` -/

/-- The revision acceptance rule of `RAGPipelineV2.process`. -/
def ragAcceptRevision (answer revised : String) : String :=
  if 10 * wordCount revised ≥ 7 * wordCount answer then revised else answer

/-! ## MistralClient.chat / MistralClient.embed (src/test.py:64-127)

Each call makes at most 5 attempts (`for attempt in range(5)`).  The
outcome of each attempt is an upstream event, modelled as a value. -/

/-- Outcome of one attempt inside `MistralClient.chat`. -/
inductive ChatAttempt where
  /-- HTTP success with a parseable body: the loop returns this text. -/
  | ok (text : String)
  /-- Case `resp.status_code == 429`: back off and `continue`. -/
  | status429
  /-- Case `requests.exceptions.HTTPError` raised; `mentions429` is whether
      `"429" in str(e)` (that branch always continues). -/
  | httpErr (msg : String) (mentions429 : Bool)
  /-- any other exception. -/
  | exc (msg : String)
deriving DecidableEq, Repr

/-- The retry loop of `MistralClient.chat`, returning the text result
(the latency component is real time, outside the model). -/
def chatGo : List ChatAttempt → Nat → String
  | [], _ => "[API_ERROR: max retries]"
  | a :: rest, attempt =>
    match a with
    | .ok t => t
    | .status429 => chatGo rest (attempt + 1)
    | .httpErr m h =>
      if h then chatGo rest (attempt + 1)
      else if attempt < 4 then chatGo rest (attempt + 1)
      else "[API_ERROR: " ++ m ++ "]"
    | .exc m =>
      if attempt < 4 then chatGo rest (attempt + 1)
      else "[API_ERROR: " ++ m ++ "]"

/-- Model of `MistralClient.chat`: 5 attempts (`range(5)`), then the
`"[API_ERROR: max retries]"` fall-through return. -/
def mistralChat (attempts : List ChatAttempt) : String :=
  chatGo (attempts.take 5) 0

/-- An embedding vector (numeric contents abstracted to rationals). -/
abbrev Vec := List ℚ

/-- Outcome of one attempt inside `MistralClient.embed`. -/
inductive EmbedAttempt where
  /-- HTTP success: the embeddings are returned. -/
  | ok (vecs : List Vec)
  /-- Case `resp.status_code == 429`: back off and `continue`. -/
  | status429
  /-- any exception. -/
  | exc (msg : String)
deriving DecidableEq, Repr

/-- What a call to `MistralClient.embed` does, observably. -/
inductive EmbedResult where
  /-- returned an embedding array. -/
  | vecs (v : List Vec)
  /-- Case `raise RuntimeError, "Embedding failed: ..."`. -/
  | raised (msg : String)
  /-- control fell off the end of the `for` loop: Python returns `None`. -/
  | pyNone
deriving DecidableEq, Repr

/-- The retry loop of `MistralClient.embed`.  Note that, unlike `chat`,
the function body has no statement after the loop: exhausting all five
attempts via the `status_code == 429` branch falls through and returns
Python `None`. -/
def embedGo : List EmbedAttempt → Nat → EmbedResult
  | [], _ => .pyNone
  | a :: rest, attempt =>
    match a with
    | .ok v => .vecs v
    | .status429 => embedGo rest (attempt + 1)
    | .exc m =>
      if attempt < 4 then embedGo rest (attempt + 1)
      else .raised ("Embedding failed: " ++ m)

/-- Model of `MistralClient.embed`: 5 attempts (`range(5)`). -/
def mistralEmbed (attempts : List EmbedAttempt) : EmbedResult :=
  embedGo (attempts.take 5) 0

/-! ## Theorems for the acceptance rule (claim C1) -/

/-- Claim C1. For every query processed by `RAGPipelineV2.process`, the
final output equals the stage-2 revision when the revision's word count
is at least 0.7 times the stage-1 draft's word count, and otherwise
equals the draft verbatim; consequently the final output's word count
is never below 70% of the draft's word count. -/
theorem ragAcceptRevision_spec (answer revised : String) :
    (10 * wordCount revised ≥ 7 * wordCount answer →
      ragAcceptRevision answer revised = revised) ∧
    (10 * wordCount revised < 7 * wordCount answer →
      ragAcceptRevision answer revised = answer) ∧
    10 * wordCount (ragAcceptRevision answer revised) ≥ 7 * wordCount answer := by
  refine ⟨fun h => ?_, fun h => ?_, ?_⟩
  · simp [ragAcceptRevision, h]
  · simp [ragAcceptRevision, Nat.not_le.mpr h]
  · by_cases h : 10 * wordCount revised ≥ 7 * wordCount answer
    · rw [ragAcceptRevision, if_pos h]; exact h
    · rw [ragAcceptRevision, if_neg h]; omega

/-- Witness for C1: a revision with 4 words against a 3-word draft is
accepted; a 3-word revision against a 10-word draft is discarded and
the draft kept verbatim. -/
theorem ragAcceptRevision_spec_witness :
    ragAcceptRevision "one two three" "w x y z" = "w x y z" ∧
    ragAcceptRevision "a b c d e f g h i j" "too short now" = "a b c d e f g h i j" :=
  ⟨(ragAcceptRevision_spec "one two three" "w x y z").1 (by decide),
   (ragAcceptRevision_spec "a b c d e f g h i j" "too short now").2.1 (by decide)⟩

/-! ## Theorems for the client retry loops (claim C4) -/

/-- Claim C4. The claim states that when the attempt budget is exhausted
`chat` returns a sentinel error-marker string while `embed` raises.
The `chat` half holds, but `embed` does not always raise: if every one
of the five attempts hits the `status_code == 429` branch (which
`continue`s without counting toward the `attempt < 4` exception check),
control falls off the end of `embed` and Python returns `None` — a
value, not an exception.  This theorem evaluates both loops at that
failing input, and shows the raise that does occur when the last
attempt fails with an exception instead. -/
theorem mistralEmbed_rate_limit_falls_through :
    mistralEmbed (List.replicate 5 .status429) = .pyNone ∧
    mistralChat (List.replicate 5 .status429) = "[API_ERROR: max retries]" ∧
    mistralEmbed (List.replicate 4 .status429 ++ [.exc "boom"]) =
      .raised "Embedding failed: boom" := by
  refine ⟨rfl, rfl, ?_⟩
  rfl

/-! ## Chunks and the vector store (src/test.py:423-481)

A chunk dict `{"chunk_id", "doc_id", "title", "text"}`.  The `text`
field is `' '.join(words[start:end])`; since document words contain no
whitespace, joining and re-splitting is lossless, so the model carries
the word list itself. -/

structure Chunk where
  chunk_id : Nat
  doc_id : String
  title : String
  text : List String
deriving DecidableEq, Repr

/-! ### The faiss IndexFlatIP search contract

`self.index.search(query_emb, top_k)` performs exact nearest-neighbor
search by inner product: it returns `top_k` (score, label) pairs in
non-increasing score order.  When `top_k` exceeds the number of stored
vectors, faiss pads the result arrays: the label is `-1` and the score
the heap's initial fill value, a large negative number.  The embedding
numerics are abstracted: the stored-vector scores against the query are
the model's input. -/

/-- Stable insertion keeping scores non-increasing: an element is
placed before the first strictly smaller score, after equal ones. -/
def insertByScore (p : ℚ × Int) : List (ℚ × Int) → List (ℚ × Int)
  | [] => [p]
  | q :: rest => if q.1 > p.1 then q :: insertByScore p rest else p :: q :: rest

/-- Sort (score, label) pairs by non-increasing score; equal scores
keep their original (insertion) order. -/
def sortByScoreDesc (l : List (ℚ × Int)) : List (ℚ × Int) := l.foldr insertByScore []

/-- The fill score faiss uses for missing results under the inner
product metric: a large negative value. -/
def faissFillScore : ℚ := -(10 ^ 38)

/-- Model of `index.search` for a flat inner-product index holding
`scores.length` vectors whose inner products against the query are
`scores` (position = insertion order): the top `min k n` pairs by
non-increasing score, padded to exactly `k` entries with
`(faissFillScore, -1)`. -/
def faissSearch (scores : List ℚ) (k : Nat) : List (ℚ × Int) :=
  let pairs := scores.enum.map (fun p => (p.2, (p.1 : Int)))
  let top := (sortByScoreDesc pairs).take (min k scores.length)
  top ++ List.replicate (k - top.length) (faissFillScore, -1)

/-- Python list indexing with a possibly negative index:
`l[i]` is `l[len(l) + i]` for `i < 0`. -/
def pyGet (l : List α) (i : Int) : Option α :=
  if 0 ≤ i then l.get? i.toNat else l.get? ((l.length : Int) + i).toNat

/-- The result loop of `VectorStore.search` (src/test.py:476-481):

    for score, idx in zip(scores[0], indices[0]):
        if idx < len(self.chunks):
            chunk = self.chunks[idx].copy()
            chunk["relevance_score"] = float(score)
            results.append(chunk)

Note the guard is `idx < len(self.chunks)`, which a padding label of
`-1` also satisfies, and `self.chunks[-1]` is Python's last element. -/
def vectorStoreSearchRows (chunks : List Chunk) (scores : List ℚ) (k : Nat) :
    List (Chunk × ℚ) :=
  (faissSearch scores k).filterMap (fun p =>
    if p.2 < (chunks.length : Int) then (pyGet chunks p.2).map (fun c => (c, p.1))
    else none)

/-! ## Theorem for VectorStore.search (claim C2) -/

/-- Claim C2. The claim states `search` returns at most
`min(k, chunkCount)` results.  It fails: with one stored chunk and
`k = 2`, faiss pads its arrays with label `-1`; the guard
`idx < len(self.chunks)` accepts `-1`, and `self.chunks[-1]` silently
re-delivers the last chunk with the huge negative fill score, so the
call returns 2 results where `min(2, 1) = 1`.  The guard was clearly
meant to reject faiss's invalid labels (`0 <= idx` is the correct
check), so this is a slip in the code rather than in the claim. -/
theorem vectorStoreSearch_overcount :
    (vectorStoreSearchRows [⟨0, "doc", "title", ["w"]⟩] [1] 2).length = 2 ∧
    min 2 1 = 1 ∧
    vectorStoreSearchRows [⟨0, "doc", "title", ["w"]⟩] [1] 2 =
      [(⟨0, "doc", "title", ["w"]⟩, 1), (⟨0, "doc", "title", ["w"]⟩, faissFillScore)] := by
  refine ⟨rfl, rfl, ?_⟩
  rfl

/-! ## DocumentChunker (src/test.py:423-445) -/

structure DocumentChunker where
  chunk_size : Nat
  overlap : Nat
deriving DecidableEq, Repr

/-- Model of `DocumentChunker.__init__`: stores the two parameters and performs
no validation whatsoever. -/
def mkDocumentChunker (chunk_size overlap : Nat) : DocumentChunker :=
  { chunk_size := chunk_size, overlap := overlap }

/-- Resolve one Python slice bound for a list of length `n`: a
negative index counts from the end, then the result is clamped into
`[0, n]`. -/
def pySliceIdx (n : Nat) (i : Int) : Nat :=
  (min (max (if i < 0 then (n : Int) + i else i) 0) (n : Int)).toNat

/-- Python `l[i:j]`. -/
def pySlice (l : List α) (i j : Int) : List α :=
  (l.take (pySliceIdx l.length j)).drop (pySliceIdx l.length i)

/-- The `while start < len(words)` loop of `chunk_documents`
(src/test.py:438-444), one fuel unit per iteration:

    while start < len(words):
        end = min(start + self.chunk_size, len(words))
        all_chunks.append({..., "text": ' '.join(words[start:end])})
        start += self.chunk_size - self.overlap

`start` is carried as an integer because `chunk_size - overlap` can be
zero or negative in Python.  `none` means the fuel ran out with the
loop still running; with advance ≥ 1 a fuel of `words.length + 1` is
always enough, and with advance ≤ 0 the Python loop never terminates
and the model returns `none` for every fuel. -/
def chunkLoop (cs : Nat) (adv : Int) (words : List String) :
    Nat → Int → Option (List (List String))
  | 0, start => if start < (words.length : Int) then none else some []
  | fuel + 1, start =>
    if start < (words.length : Int) then
      match chunkLoop cs adv words fuel (start + adv) with
      | none => none
      | some rest =>
        some (pySlice words start (min (start + (cs : Int)) (words.length : Int)) :: rest)
    else some []

/-- The word sequences of the chunks that `chunk_documents` emits for a
single document: one whole-document chunk when the word count is at
most `chunk_size`, otherwise the sliding-window loop from 0 with
advance `chunk_size - overlap`. -/
def docChunkTexts (chunker : DocumentChunker) (words : List String) :
    Option (List (List String)) :=
  if words.length ≤ chunker.chunk_size then some [words]
  else chunkLoop chunker.chunk_size ((chunker.chunk_size : Int) - (chunker.overlap : Int))
    words (words.length + 1) 0

/-- An input document: `{"id", "title", "content"}`, the content
carried as its word list `doc["content"].split()`. -/
structure Document where
  id : String
  title : String
  content : List String
deriving DecidableEq, Repr

/-- Model of `DocumentChunker.chunk_documents` over the document list, with
`chunk_id` a running counter across all documents in call order. -/
def chunk_documents (chunker : DocumentChunker) :
    List Document → Nat → Option (List Chunk)
  | [], _ => some []
  | d :: ds, cid =>
    match docChunkTexts chunker d.content with
    | none => none
    | some texts =>
      match chunk_documents chunker ds (cid + texts.length) with
      | none => none
      | some rest =>
        some (texts.enum.map (fun p => Chunk.mk (cid + p.1) d.id d.title p.2) ++ rest)

/-- With a non-positive advance (`overlap ≥ chunk_size`) and a
non-empty word list, the loop never terminates: `start` never grows,
so the model yields `none` at every fuel. -/
lemma chunkLoop_neg_adv (cs : Nat) (adv : Int) (words : List String) (hadv : adv ≤ 0) :
    ∀ (fuel : Nat) (start : Int), start ≤ 0 → 0 < words.length →
      chunkLoop cs adv words fuel start = none := by
  intro fuel
  induction fuel with
  | zero =>
    intro start h0 hlen
    have hlt : start < (words.length : Int) := by
      have : (0 : Int) < (words.length : Int) := by exact_mod_cast hlen
      omega
    simp [chunkLoop, hlt]
  | succ n ih =>
    intro start h0 hlen
    have hlt : start < (words.length : Int) := by
      have : (0 : Int) < (words.length : Int) := by exact_mod_cast hlen
      omega
    simp only [chunkLoop, if_pos hlt]
    rw [ih (start + adv) (by omega) hlen]

/-- The slice taken at a window position `s ≤ words.length` is
`(words.drop s).take cs`. -/
lemma chunkSlice_eq (words : List String) (cs s : Nat) (hs : s ≤ words.length) :
    pySlice words (s : Int) (min ((s : Int) + (cs : Int)) ((words.length : Nat) : Int)) =
      (words.drop s).take cs := by
  have h0 : ¬ ((s : Int) < 0) := by omega
  have hmin0 : ¬ (min ((s : Int) + (cs : Int)) ((words.length : Nat) : Int) < 0) := by omega
  have h1 : pySliceIdx words.length (s : Int) = s := by
    simp only [pySliceIdx, if_neg h0]
    omega
  have h2 : pySliceIdx words.length (min ((s : Int) + (cs : Int)) ((words.length : Nat) : Int)) =
      min (s + cs) words.length := by
    simp only [pySliceIdx, if_neg hmin0]
    omega
  rw [pySlice, h1, h2, List.drop_take]
  rw [List.take_eq_take]
  simp [List.length_drop]
  omega

/-- Invariant of the chunking loop started at a window position `s`
with positive advance `cs - ov` and enough fuel: the loop terminates;
the emitted slice list is empty iff the loop is entered past the end;
its head is the window at `s`; every consecutive pair whose earlier
chunk is full-size shares exactly the last/first `ov` words; and every
word from position `s` on is covered by some chunk. -/
lemma chunkLoop_spec (cs ov : Nat) (words : List String) (hov : ov < cs) :
    ∀ (fuel s : Nat), words.length ≤ s + fuel →
    ∃ l, chunkLoop cs ((cs : Int) - (ov : Int)) words fuel (s : Int) = some l ∧
      (words.length ≤ s → l = []) ∧
      (s < words.length → l.head? = some ((words.drop s).take cs)) ∧
      (∀ i c c2, l[i]? = some c → l[i + 1]? = some c2 → c.length = cs →
        c.drop (cs - ov) = c2.take ov ∧ ov ≤ c2.length) ∧
      (∀ p w, s ≤ p → words[p]? = some w → ∃ c, c ∈ l ∧ w ∈ c) := by
  intro fuel
  induction fuel with
  | zero =>
    intro s hfuel
    have hle : words.length ≤ s := by omega
    have hns : ¬ ((s : Int) < (words.length : Int)) := by
      push_neg
      exact_mod_cast hle
    refine ⟨[], by simp [chunkLoop, hns], fun _ => rfl, fun h => absurd h (by omega), ?_, ?_⟩
    · intro i c c2 hc _ _
      simp at hc
    · intro p w hp hw
      have : p < words.length := (List.getElem?_eq_some.mp hw).1
      omega
  | succ fuel ih =>
    intro s hfuel
    by_cases hs : s < words.length
    · have hguard : ((s : Int) < (words.length : Int)) := by exact_mod_cast hs
      obtain ⟨rest, hrest, hre, hrh, hrp, hrc⟩ := ih (s + (cs - ov)) (by omega)
      have hrec : ((s : Int) + ((cs : Int) - (ov : Int))) = (((s + (cs - ov) : Nat)) : Int) := by
        push_cast
        omega
      have hsl := chunkSlice_eq words cs s hs.le
      refine ⟨((words.drop s).take cs) :: rest, ?_, ?_, ?_, ?_, ?_⟩
      · simp only [chunkLoop, if_pos hguard, hrec, hrest, hsl]
      · intro h
        exact absurd h (by omega)
      · intro _
        rfl
      · intro i c c2 hc hc2 hclen
        match i with
        | 0 =>
          rw [List.getElem?_cons_zero] at hc
          rw [List.getElem?_cons_succ] at hc2
          have hcval : c = (words.drop s).take cs := by
            injection hc with h
            exact h.symm
          have hrne : (s + (cs - ov)) < words.length := by
            by_contra hcon
            push_neg at hcon
            rw [hre hcon] at hc2
            simp at hc2
          have hhead := hrh hrne
          rw [List.head?_eq_getElem?, hc2] at hhead
          have hc2val : c2 = (words.drop (s + (cs - ov))).take cs :=
            Option.some_inj.mp hhead
          subst hcval
          subst hc2val
          have hfull : s + cs ≤ words.length := by
            rw [List.length_take, List.length_drop] at hclen
            omega
          constructor
          · rw [List.drop_take, List.drop_drop, Nat.sub_sub_self hov.le, List.take_take,
              min_eq_left hov.le]
          · rw [List.length_take, List.length_drop]
            omega
        | i + 1 =>
          rw [List.getElem?_cons_succ] at hc hc2
          exact hrp i c c2 hc hc2 hclen
      · intro p w hp hw
        by_cases hps : s + (cs - ov) ≤ p
        · obtain ⟨c, hcl, hwc⟩ := hrc p w hps hw
          exact ⟨c, List.mem_cons_of_mem _ hcl, hwc⟩
        · push_neg at hps
          refine ⟨(words.drop s).take cs, List.mem_cons_self _ _, ?_⟩
          have hplen : p < words.length := (List.getElem?_eq_some.mp hw).1
          apply List.getElem?_mem (n := p - s)
          rw [List.getElem?_take, if_pos (by omega : p - s < cs), List.getElem?_drop]
          rw [show s + (p - s) = p by omega]
          exact hw
    · have hns : ¬ ((s : Int) < (words.length : Int)) := by
        push_neg
        push_neg at hs
        exact_mod_cast hs
      refine ⟨[], by simp [chunkLoop, hns], fun _ => rfl, fun h => absurd h hs, ?_, ?_⟩
      · intro i c c2 hc _ _
        simp at hc
      · intro p w hp hw
        have : p < words.length := (List.getElem?_eq_some.mp hw).1
        omega

/-! ## Theorems for the chunker (claims C3 and C9) -/

/-- Claim C3 (amended). For a document with more than `chunk_size` words
and `overlap < chunk_size`, chunking terminates and: every pair of
consecutive chunks whose earlier member is full-size (exactly
`chunk_size` words) shares exactly `overlap` words at the boundary
(the earlier chunk's last `overlap` words are the later chunk's first
`overlap` words, and the later chunk has at least `overlap` words);
and every word of the document appears in at least one emitted chunk.
The unamended claim — that *every* consecutive pair shares exactly
`overlap` words — fails when the tail of the document truncates the
earlier chunk below `chunk_size` words (see the counterexample). -/
theorem docChunkTexts_boundary_coverage (cs ov : Nat) (words : List String)
    (hov : ov < cs) (hlen : cs < words.length) (l : List (List String))
    (hl : docChunkTexts ⟨cs, ov⟩ words = some l) :
    (∀ i c c2, l[i]? = some c → l[i + 1]? = some c2 → c.length = cs →
      c.drop (cs - ov) = c2.take ov ∧ ov ≤ c2.length) ∧
    (∀ w ∈ words, ∃ c, c ∈ l ∧ w ∈ c) := by
  obtain ⟨l2, hl2, _, _, hp, hc⟩ :=
    chunkLoop_spec cs ov words hov (words.length + 1) 0 (by omega)
  rw [Nat.cast_zero] at hl2
  rw [docChunkTexts] at hl
  simp only [if_neg (by omega : ¬ words.length ≤ cs)] at hl
  have hll : l = l2 := by
    have := hl.symm.trans hl2
    exact Option.some_inj.mp this
  subst hll
  refine ⟨hp, ?_⟩
  intro w hw
  obtain ⟨n, hn⟩ := List.mem_iff_getElem?.mp hw
  exact hc n w (Nat.zero_le n) hn

/-- Witness for C3 (amended): the document `a … i` (9 words) with
`chunk_size = 5`, `overlap = 3`: the first two chunks are full-size
and share exactly 3 words, and the word `i` is covered. -/
theorem docChunkTexts_boundary_coverage_witness :
    (["a", "b", "c", "d", "e"].drop (5 - 3) =
      (["c", "d", "e", "f", "g"] : List String).take 3 ∧
      3 ≤ (["c", "d", "e", "f", "g"] : List String).length) ∧
    (∃ c, c ∈ [["a", "b", "c", "d", "e"], ["c", "d", "e", "f", "g"],
      ["e", "f", "g", "h", "i"], ["g", "h", "i"], ["i"]] ∧ "i" ∈ c) := by
  have h := docChunkTexts_boundary_coverage 5 3
    ["a", "b", "c", "d", "e", "f", "g", "h", "i"] (by decide) (by decide)
    [["a", "b", "c", "d", "e"], ["c", "d", "e", "f", "g"],
      ["e", "f", "g", "h", "i"], ["g", "h", "i"], ["i"]] (by decide)
  exact ⟨h.1 0 _ _ (by decide) (by decide) (by decide), h.2 "i" (by decide)⟩

/-- Counterexample to C3 as stated: for the 9-word document with
`chunk_size = 5`, `overlap = 3`, the emitted chunks end with
`[g, h, i]` followed by `[i]`; that consecutive pair shares only one
word, not `overlap = 3`. -/
theorem docChunkTexts_short_tail_pair :
    docChunkTexts ⟨5, 3⟩ ["a", "b", "c", "d", "e", "f", "g", "h", "i"] =
      some [["a", "b", "c", "d", "e"], ["c", "d", "e", "f", "g"],
        ["e", "f", "g", "h", "i"], ["g", "h", "i"], ["i"]] ∧
    ¬ ((["g", "h", "i"] : List String).drop (["g", "h", "i"].length - 3) =
      (["i"] : List String).take 3) := by
  constructor
  · decide
  · decide

/-- Claim C9 (amended). `DocumentChunker.__init__` performs no
validation: a chunker is constructed for every `overlap ≥ chunk_size`.
Under such a configuration, chunking a document longer than
`chunk_size` never terminates — the window advance is ≤ 0, so the
loop yields `none` at every fuel — rather than failing with a
construction error.  Chunking terminates whenever
`overlap < chunk_size` (strictly positive advance). -/
theorem chunker_no_construction_check (cs ov : Nat) (words : List String)
    (hlen : cs < words.length) :
    mkDocumentChunker cs ov = ⟨cs, ov⟩ ∧
    (cs ≤ ov → ∀ fuel, chunkLoop cs ((cs : Int) - (ov : Int)) words fuel 0 = none) ∧
    (ov < cs → (docChunkTexts (mkDocumentChunker cs ov) words).isSome = true) := by
  refine ⟨rfl, ?_, ?_⟩
  · intro hle fuel
    exact chunkLoop_neg_adv cs _ words (by omega) fuel 0 le_rfl (by omega)
  · intro hov
    obtain ⟨l, hl, -, -, -, -⟩ :=
      chunkLoop_spec cs ov words hov (words.length + 1) 0 (by omega)
    rw [Nat.cast_zero] at hl
    rw [docChunkTexts]
    simp only [mkDocumentChunker] at hl ⊢
    rw [if_neg (by omega : ¬ words.length ≤ cs), hl]
    rfl

/-- Witness for C9 (amended): `chunk_size = 5`, `overlap = 7` on a
6-word document — construction succeeds and the loop never finishes;
`overlap = 3` on the same document terminates. -/
theorem chunker_no_construction_check_witness :
    mkDocumentChunker 5 7 = ⟨5, 7⟩ ∧
    chunkLoop 5 ((5 : Int) - (7 : Int)) ["a", "b", "c", "d", "e", "f"] 9 0 = none ∧
    (docChunkTexts (mkDocumentChunker 5 3) ["a", "b", "c", "d", "e", "f"]).isSome = true :=
  ⟨(chunker_no_construction_check 5 7 ["a", "b", "c", "d", "e", "f"] (by decide)).1,
   (chunker_no_construction_check 5 7 ["a", "b", "c", "d", "e", "f"] (by decide)).2.1
     (by decide) 9,
   (chunker_no_construction_check 5 3 ["a", "b", "c", "d", "e", "f"] (by decide)).2.2
     (by decide)⟩

/-- Counterexample to C9 as stated: with `chunk_size = overlap = 5`,
construction succeeds (it is not an error), and chunking a 6-word
document exhausts any fuel — the Python loop runs forever, with a
window advance of 0, instead of any construction-time failure. -/
theorem chunker_overlap_eq_size_diverges :
    mkDocumentChunker 5 5 = ⟨5, 5⟩ ∧
    docChunkTexts (mkDocumentChunker 5 5) ["a", "b", "c", "d", "e", "f"] = none := by
  constructor
  · rfl
  · decide

/-! ## LLMJudge (src/test.py:636-722)

`LLMJudge._parse` first extracts the maximal `{...}` span and runs
`json.loads` on it; the result of that library callout is the
`jsonObj` oracle input below (`none` when there is no brace span or
the JSON is invalid; otherwise the parsed object, whose relevant
fields appear in `PyJudgeJson` and whose remaining keys are summarised
by `otherKeys`).  If the JSON path yields nothing, a fallback scans
the whole response for `dim["\s:]+(\d)` per dimension — note the
Python loop runs the *same* searches for both labels — and for
`prefer.*?A` / `prefer.*?B`; those pattern hits are the `dimHit`,
`preferApat`, `preferBpat` oracle inputs.  The fallback cannot fail,
so `_parse` returns `None` only in theory; the neutral default verdict
is however reachable through a parsed-but-falsy object such as `{}`. -/

/-- The six rubric dimensions, in source order. -/
def judgeDims : List String :=
  ["accuracy", "completeness", "balance", "clarity", "calibration", "helpfulness"]

/-- The parsed-JSON dict shape relevant to `LLMJudge.evaluate`: the
two per-label sections (each an association list of dimension scores,
`none` when the key is missing), the `preferred` and `reasoning`
entries, and whether any other key is present (for truthiness). -/
structure PyJudgeJson where
  response_a : Option (List (String × Int))
  response_b : Option (List (String × Int))
  preferred : Option String
  reasoning : Option String
  otherKeys : Bool
deriving DecidableEq, Repr

/-- Python truthiness of the dict: non-empty. -/
def PyJudgeJson.truthy (d : PyJudgeJson) : Bool :=
  d.response_a.isSome || d.response_b.isSome || d.preferred.isSome ||
    d.reasoning.isSome || d.otherKeys

/-- One fallback section: every dimension key, scored by its pattern
hit or defaulted to 3 (src/test.py:713-717). -/
def fallbackSection (dimHit : String → Option Int) : List (String × Int) :=
  judgeDims.map (fun d => (d, (dimHit d).getD 3))

/-- Model of `LLMJudge._parse`: the JSON path if it produced an object,
otherwise the pattern fallback (which always succeeds). -/
def judgeParse (jsonObj : Option PyJudgeJson) (dimHit : String → Option Int)
    (preferApat preferBpat : Bool) : Option PyJudgeJson :=
  match jsonObj with
  | some d => some d
  | none =>
    some { response_a := some (fallbackSection dimHit)
           response_b := some (fallbackSection dimHit)
           preferred := some (if preferApat then "A" else if preferBpat then "B" else "TIE")
           reasoning := some "Extracted"
           otherKeys := false }

/-- The verdict dict `LLMJudge.evaluate` appends and returns. -/
structure JudgeVerdict where
  normal_scores : List (String × Int)
  rag_scores : List (String × Int)
  winner : String
  preferred : Option String
  reasoning : Option String
deriving DecidableEq, Repr

/-- The neutral default verdict of the `else` branch
(src/test.py:695-698). -/
def defaultVerdict : JudgeVerdict :=
  { normal_scores := judgeDims.map (fun d => (d, 3))
    rag_scores := judgeDims.map (fun d => (d, 3))
    winner := "tie"
    preferred := none
    reasoning := some "Parse failed" }

/-- Model of the dict lookup with default on line 689/693 of the source, with the label-to-pipeline
remapping of src/test.py:689 and 693. -/
def winnerOf (aIsNormal : Bool) (pref : String) : String :=
  if aIsNormal then (if pref = "A" then "normal" else if pref = "B" then "rag" else "tie")
  else (if pref = "A" then "rag" else if pref = "B" then "normal" else "tie")

/-- The post-parse half of `LLMJudge.evaluate` (src/test.py:686-698):
`aIsNormal` is the coin flip of lines 665-670 (whether the "normal"
pipeline got label A), `parsed` the `_parse` result.  A truthy dict is
remapped by pipeline identity; a falsy or absent one becomes the
neutral default verdict. -/
def judgeEvaluateCore (aIsNormal : Bool) (parsed : Option PyJudgeJson) : JudgeVerdict :=
  match parsed with
  | none => defaultVerdict
  | some s =>
    if s.truthy then
      { normal_scores := (if aIsNormal then s.response_a else s.response_b).getD []
        rag_scores := (if aIsNormal then s.response_b else s.response_a).getD []
        winner := winnerOf aIsNormal (s.preferred.getD "")
        preferred := s.preferred
        reasoning := s.reasoning }
    else defaultVerdict

/-- Model of `LLMJudge.evaluate` downstream of the model call, as a function of
the coin flip and the parse oracle inputs. -/
def judgeEvaluate (aIsNormal : Bool) (jsonObj : Option PyJudgeJson)
    (dimHit : String → Option Int) (preferApat preferBpat : Bool) : JudgeVerdict :=
  judgeEvaluateCore aIsNormal (judgeParse jsonObj dimHit preferApat preferBpat)

/-- Whether a score section carries an entry for dimension `d`. -/
def hasScore (l : List (String × Int)) (d : String) : Bool := l.any (fun p => p.1 == d)

/-- Whether a verdict carries all six dimension scores for both
pipelines. -/
def allDimsPresent (v : JudgeVerdict) : Bool :=
  judgeDims.all (fun d => hasScore v.normal_scores d && hasScore v.rag_scores d)

/-! ## Theorems for the judge (claims C5, C6, C7) -/

/-- Every fallback section contains every dimension of `judgeDims`. -/
lemma hasScore_fallbackSection (dimHit : String → Option Int) (d : String)
    (hd : d ∈ judgeDims) : hasScore (fallbackSection dimHit) d = true := by
  unfold hasScore fallbackSection
  refine List.any_eq_true.mpr
    ⟨(d, (dimHit d).getD 3), List.mem_map_of_mem _ hd, ?_⟩
  simp

/-- Claim C5 (amended). For a judge response that is neither valid
structured JSON nor pattern-extractable (brace/JSON extraction yields
nothing, no dimension pattern matches, neither preference pattern
matches), `LLMJudge.evaluate` returns a verdict with every one of the
six dimension scores equal to 3 for both pipelines and winner `tie`,
and the model is a total function (no exception).  The rationale,
however, is `"Extracted"`: the pattern fallback cannot fail (it
defaults every dimension to 3 and the preference to TIE), so the
neutral default verdict with rationale `"Parse failed"` is reached
only when the JSON path parses an empty (falsy) object such as `{}` —
never on an unextractable response, and its rationale is not the
claimed `"parse failed"` either. -/
theorem judgeEvaluate_unextractable (aIsNormal : Bool) (dimHit : String → Option Int)
    (hd : ∀ d ∈ judgeDims, dimHit d = none) :
    judgeEvaluate aIsNormal none dimHit false false =
      { normal_scores := judgeDims.map (fun d => (d, 3))
        rag_scores := judgeDims.map (fun d => (d, 3))
        winner := "tie"
        preferred := some "TIE"
        reasoning := some "Extracted" } := by
  have hsec : fallbackSection dimHit = judgeDims.map (fun d => (d, 3)) := by
    unfold fallbackSection
    apply List.map_congr_left
    intro d hdm
    rw [hd d hdm]
    rfl
  cases aIsNormal <;>
    simp [judgeEvaluate, judgeParse, judgeEvaluateCore, PyJudgeJson.truthy, winnerOf, hsec]

/-- Witness for C5 (amended): the all-`none` oracle (a response like
`"hello"`, with no braces, no dimension pattern, no preference
pattern). -/
theorem judgeEvaluate_unextractable_witness :
    judgeEvaluate true none (fun _ => none) false false =
      { normal_scores := judgeDims.map (fun d => (d, 3))
        rag_scores := judgeDims.map (fun d => (d, 3))
        winner := "tie"
        preferred := some "TIE"
        reasoning := some "Extracted" } :=
  judgeEvaluate_unextractable true (fun _ => none) (fun _ _ => rfl)

/-- Counterexample to C5 as stated: on an unextractable response the
verdict's rationale is `"Extracted"`, not `"parse failed"`. -/
theorem judgeEvaluate_unextractable_reason :
    (judgeEvaluate true none (fun _ => none) false false).reasoning = some "Extracted" ∧
    some "Extracted" ≠ some "parse failed" ∧
    (judgeEvaluate true none (fun _ => none) false false).winner = "tie" := by
  refine ⟨rfl, by decide, rfl⟩

/-- Claim C6 (amended). Verdicts produced by the pattern-fallback path
and by the neutral default path carry all six dimension scores for
both pipelines (defaulted to 3 where no pattern matched).  The
unamended claim — all six scores present for *every* possible judge
response — fails on the primary JSON path: a valid, truthy JSON object
lacking the per-label sections (e.g. `{"preferred": "A"}`) yields
empty score dicts (see the counterexample); downstream consumers
compensate with `.get(dim, 3)`. -/
theorem judgeVerdict_dims_defaulted (aIsNormal : Bool) (jsonObj : Option PyJudgeJson)
    (dimHit : String → Option Int) (preferApat preferBpat : Bool)
    (h : jsonObj = none ∨ ∃ d, jsonObj = some d ∧ d.truthy = false) :
    allDimsPresent (judgeEvaluate aIsNormal jsonObj dimHit preferApat preferBpat) = true := by
  rcases h with h | ⟨d, hdeq, hdf⟩
  · subst h
    have hverd : judgeEvaluate aIsNormal none dimHit preferApat preferBpat =
        { normal_scores := fallbackSection dimHit
          rag_scores := fallbackSection dimHit
          winner := winnerOf aIsNormal
            (if preferApat then "A" else if preferBpat then "B" else "TIE")
          preferred := some (if preferApat then "A" else if preferBpat then "B" else "TIE")
          reasoning := some "Extracted" } := by
      cases aIsNormal <;>
        simp [judgeEvaluate, judgeParse, judgeEvaluateCore, PyJudgeJson.truthy]
    rw [hverd]
    unfold allDimsPresent
    refine List.all_eq_true.mpr ?_
    intro d hdm
    rw [hasScore_fallbackSection dimHit d hdm]
    rfl
  · subst hdeq
    have : judgeEvaluate aIsNormal (some d) dimHit preferApat preferBpat = defaultVerdict := by
      simp [judgeEvaluate, judgeParse, judgeEvaluateCore, hdf]
    rw [this]
    decide

/-- Witness for C6 (amended): the fallback path with one pattern hit,
and the default path on the falsy parsed object `{}`. -/
theorem judgeVerdict_dims_defaulted_witness :
    allDimsPresent (judgeEvaluate true none (fun _ => some 4) true false) = true ∧
    allDimsPresent (judgeEvaluate false (some ⟨none, none, none, none, false⟩)
      (fun _ => none) false false) = true :=
  ⟨judgeVerdict_dims_defaulted true none (fun _ => some 4) true false (Or.inl rfl),
   judgeVerdict_dims_defaulted false (some ⟨none, none, none, none, false⟩)
     (fun _ => none) false false (Or.inr ⟨_, rfl, rfl⟩)⟩

/-- A parsed JSON object with no per-label sections, modelling the
judge response `{"preferred": "A", "reasoning": "x"}`. -/
def jsonMissingSections : PyJudgeJson :=
  { response_a := none, response_b := none, preferred := some "A",
    reasoning := some "x", otherKeys := false }

/-- Counterexample to C6 as stated: a valid truthy JSON response with
no `response_a`/`response_b` sections produces a verdict whose score
dicts are empty — no dimension score is present at all. -/
theorem judgeVerdict_dims_absent :
    allDimsPresent (judgeEvaluate true (some jsonMissingSections)
      (fun _ => none) false false) = false ∧
    (judgeEvaluate true (some jsonMissingSections)
      (fun _ => none) false false).normal_scores = [] ∧
    (judgeEvaluate true (some jsonMissingSections)
      (fun _ => none) false false).rag_scores = [] := by
  refine ⟨by decide, rfl, rfl⟩

/-- Complement a per-label preference: swaps `"A"` and `"B"`, fixes
everything else (`"TIE"`, garbage). -/
def complementPref (s : String) : String :=
  if s = "A" then "B" else if s = "B" then "A" else s

/-- The parsed judge object as it would look had the two candidate
outputs been assigned the opposite labels: the per-label sections
swap and the per-label preference complements. -/
def swapLabels (d : PyJudgeJson) : PyJudgeJson :=
  { response_a := d.response_b
    response_b := d.response_a
    preferred := d.preferred.map complementPref
    reasoning := d.reasoning
    otherKeys := d.otherKeys }

/-- Claim C7. The winner reported by `LLMJudge.evaluate` is keyed by
physical pipeline identity and is independent of the random label
assignment: flipping the coin (which pipeline holds label A) while
complementing the judge's per-label preference and swapping its
per-label sections yields the same winning pipeline — and the same
per-pipeline score sections — after remapping. -/
theorem judgeEvaluate_label_invariant (d : PyJudgeJson) :
    (judgeEvaluateCore true (some d)).winner =
      (judgeEvaluateCore false (some (swapLabels d))).winner ∧
    (judgeEvaluateCore true (some d)).normal_scores =
      (judgeEvaluateCore false (some (swapLabels d))).normal_scores ∧
    (judgeEvaluateCore true (some d)).rag_scores =
      (judgeEvaluateCore false (some (swapLabels d))).rag_scores := by
  have htr : (swapLabels d).truthy = d.truthy := by
    unfold PyJudgeJson.truthy swapLabels
    simp only [Option.isSome_map]
    cases d.response_a.isSome <;> cases d.response_b.isSome <;> simp
  have hw : ∀ o : Option String,
      winnerOf true (o.getD "") = winnerOf false ((o.map complementPref).getD "") := by
    intro o
    cases o with
    | none => decide
    | some s =>
      by_cases hA : s = "A"
      · subst hA
        decide
      · by_cases hB : s = "B"
        · subst hB
          decide
        · simp [winnerOf, complementPref, hA, hB]
  have hcore : ∀ (b : Bool) (s : PyJudgeJson), s.truthy = true →
      judgeEvaluateCore b (some s) =
        { normal_scores := (if b then s.response_a else s.response_b).getD []
          rag_scores := (if b then s.response_b else s.response_a).getD []
          winner := winnerOf b (s.preferred.getD "")
          preferred := s.preferred
          reasoning := s.reasoning } := by
    intro b s hs
    simp [judgeEvaluateCore, hs]
  cases hdt : d.truthy
  · have h1 : judgeEvaluateCore true (some d) = defaultVerdict := by
      simp [judgeEvaluateCore, hdt]
    have h2 : judgeEvaluateCore false (some (swapLabels d)) = defaultVerdict := by
      simp [judgeEvaluateCore, htr.trans hdt]
    rw [h1, h2]
    exact ⟨rfl, rfl, rfl⟩
  · rw [hcore true d hdt, hcore false (swapLabels d) (htr.trans hdt)]
    exact ⟨hw d.preferred, rfl, rfl⟩

/-! ## VectorStore state: build_index and search (src/test.py:448-481)

`VectorStore.__init__` sets `self.index = None` and `self.chunks = []`.
`build_index` first assigns `self.chunks = chunks`, then embeds the
chunk texts in batches of 10 (`range(0, len(texts), 10)`), strictly in
order; a raising `client.embed` propagates out of `build_index` with
`self.index` untouched.  On success the stacked embeddings become the
flat index (vector normalization and the faiss structure itself are
abstracted: the claims below concern only whether an index exists).
`search` immediately calls `self.index.search(...)`, which on an unbuilt
store is `None.search` — an `AttributeError`, i.e. an error rather than
a result list. -/

structure VectorStoreState where
  index : Option (List Vec)
  chunks : List Chunk
deriving DecidableEq, Repr

/-- Model of `VectorStore.__init__`. -/
def initVectorStore : VectorStoreState := { index := none, chunks := [] }

/-- Marker for a raising call. -/
def exceptIsError : Except String α → Bool
  | .error _ => true
  | .ok _ => false

/-- Number of embedding batches: `range(0, n, 10)` has `⌈n / 10⌉`
elements. -/
def numBatches (n : Nat) : Nat := (n + 9) / 10

/-- The batch loop of `build_index`: each batch either embeds (its
vectors are accumulated in order) or raises, aborting the loop. -/
def embedBatchesGo (be : Nat → Except String (List Vec)) : List Nat → Except String (List Vec)
  | [] => .ok []
  | i :: rest =>
    match be i with
    | .error e => .error e
    | .ok v =>
      match embedBatchesGo be rest with
      | .error e => .error e
      | .ok vs => .ok (v ++ vs)

/-- Model of `VectorStore.build_index`: returns the call outcome together with
the state of the store afterwards.  `be i` is the result of the
`client.embed` call on batch `i`. -/
def build_index (st : VectorStoreState) (chunks : List Chunk)
    (be : Nat → Except String (List Vec)) : Except String Unit × VectorStoreState :=
  let st1 : VectorStoreState := { st with chunks := chunks }
  match embedBatchesGo be (List.range (numBatches chunks.length)) with
  | .error e => (.error e, st1)
  | .ok vs => (.ok (), { st1 with index := some vs })

/-- Model of `VectorStore.search` at the store level: on an unbuilt store the
attribute access on `None` errors; on a built store the faiss search
post-processing of `vectorStoreSearchRows` runs against the stored
chunks.  `scores` is the similarity oracle for the query. -/
def vectorStoreSearch (st : VectorStoreState) (scores : List ℚ) (k : Nat) :
    Except String (List (Chunk × ℚ)) :=
  match st.index with
  | none => .error "not built"
  | some _ => .ok (vectorStoreSearchRows st.chunks scores k)

/-- A batch loop containing a raising batch raises. -/
lemma embedBatchesGo_error (be : Nat → Except String (List Vec)) :
    ∀ l : List Nat, (∃ i ∈ l, exceptIsError (be i) = true) →
      exceptIsError (embedBatchesGo be l) = true := by
  intro l
  induction l with
  | nil => rintro ⟨i, hi, -⟩; cases hi
  | cons j rest ih =>
    rintro ⟨i, hi, hie⟩
    rcases List.mem_cons.mp hi with h | h
    · subst h
      unfold embedBatchesGo
      cases hbe : be i with
      | error e => rfl
      | ok v => rw [hbe] at hie; cases hie
    · have hrest := ih ⟨i, h, hie⟩
      unfold embedBatchesGo
      cases hbe : be j with
      | error e => rfl
      | ok v =>
        cases hrec : embedBatchesGo be rest with
        | error e => rfl
        | ok vs => rw [hrec] at hrest; cases hrest

/-! ## Theorems for the build/search lifecycle (claims C8 and C10) -/

/-- Claim C8. On a store whose index has not been built (as
`VectorStore.__init__` leaves it), if an embedding call fails during
any internal batch of `build_index`, then `build_index` raises, no
index is considered built, and every subsequent `search` call on that
store errors as "not built" rather than returning results. -/
theorem build_index_failure_aborts (st : VectorStoreState) (chunks : List Chunk)
    (be : Nat → Except String (List Vec)) (scores : List ℚ) (k : Nat)
    (hinit : st.index = none)
    (hfail : ∃ i ∈ List.range (numBatches chunks.length), exceptIsError (be i) = true) :
    exceptIsError (build_index st chunks be).1 = true ∧
    (build_index st chunks be).2.index = none ∧
    vectorStoreSearch (build_index st chunks be).2 scores k = .error "not built" := by
  have herr := embedBatchesGo_error be (List.range (numBatches chunks.length)) hfail
  unfold build_index
  cases hrec : embedBatchesGo be (List.range (numBatches chunks.length)) with
  | error e =>
    refine ⟨rfl, hinit, ?_⟩
    unfold vectorStoreSearch
    rw [hinit]
  | ok vs => rw [hrec] at herr; cases herr

/-- Witness for C8: a fresh store, one chunk (one batch), the batch
raising. -/
theorem build_index_failure_aborts_witness :
    exceptIsError (build_index initVectorStore [⟨0, "doc", "t", ["w"]⟩]
      (fun _ => .error "Embedding failed: boom")).1 = true ∧
    (build_index initVectorStore [⟨0, "doc", "t", ["w"]⟩]
      (fun _ => .error "Embedding failed: boom")).2.index = none ∧
    vectorStoreSearch (build_index initVectorStore [⟨0, "doc", "t", ["w"]⟩]
      (fun _ => .error "Embedding failed: boom")).2 [1] 5 = .error "not built" :=
  build_index_failure_aborts initVectorStore [⟨0, "doc", "t", ["w"]⟩]
    (fun _ => .error "Embedding failed: boom") [1] 5 rfl (by decide)

/-- Claim C10. `build_index` assigns `self.chunks = chunks` before the
first embedding call, so when an embedding batch fails and
`build_index` raises, the store's `chunks` field already holds the new
chunks while `index` is left exactly as it was (unbuilt on a fresh
store): the store state is not left unchanged by the failed call. -/
theorem build_index_mutates_chunks_first (st : VectorStoreState) (chunks : List Chunk)
    (be : Nat → Except String (List Vec))
    (hfail : ∃ i ∈ List.range (numBatches chunks.length), exceptIsError (be i) = true) :
    exceptIsError (build_index st chunks be).1 = true ∧
    (build_index st chunks be).2.chunks = chunks ∧
    (build_index st chunks be).2.index = st.index := by
  have herr := embedBatchesGo_error be (List.range (numBatches chunks.length)) hfail
  unfold build_index
  cases hrec : embedBatchesGo be (List.range (numBatches chunks.length)) with
  | error e => exact ⟨rfl, rfl, rfl⟩
  | ok vs => rw [hrec] at herr; cases herr

/-- Witness for C10: a store that previously held other chunks; after
the failed rebuild its chunk list is the new one and its index is
still whatever it was. -/
theorem build_index_mutates_chunks_first_witness :
    exceptIsError (build_index ⟨none, [⟨9, "old", "t", ["x"]⟩]⟩
      [⟨0, "new", "t", ["y"]⟩, ⟨1, "new", "t", ["z"]⟩]
      (fun _ => .error "Embedding failed: down")).1 = true ∧
    (build_index ⟨none, [⟨9, "old", "t", ["x"]⟩]⟩
      [⟨0, "new", "t", ["y"]⟩, ⟨1, "new", "t", ["z"]⟩]
      (fun _ => .error "Embedding failed: down")).2.chunks =
      [⟨0, "new", "t", ["y"]⟩, ⟨1, "new", "t", ["z"]⟩] ∧
    (build_index ⟨none, [⟨9, "old", "t", ["x"]⟩]⟩
      [⟨0, "new", "t", ["y"]⟩, ⟨1, "new", "t", ["z"]⟩]
      (fun _ => .error "Embedding failed: down")).2.index = none :=
  build_index_mutates_chunks_first ⟨none, [⟨9, "old", "t", ["x"]⟩]⟩
    [⟨0, "new", "t", ["y"]⟩, ⟨1, "new", "t", ["z"]⟩]
    (fun _ => .error "Embedding failed: down") (by decide)
